import Mathlib

/-!
Shallow embedding of `src/pika/codec/decode.py` (AMQP field-value decoder).

Buffers are lists of bytes (`Fin 256`).  Python's `struct.unpack_from`
raises on an out-of-range read, which we model by `Option`; Python slice
notation `v[a:b]` silently clamps to the available bytes, which we model
faithfully with drop/take.  The mutually recursive decoders
(`_decode_value`, `field_array`, `field_table`) are made total with a
fuel parameter; running out of fuel yields `none`, exactly like every
other failure (in Python, an exception).

A float value is represented by its raw big-endian 32-bit pattern (the
IEEE interpretation is a fixed injective-enough function of those bits,
irrelevant to every property below), and a timestamp by the raw 64-bit
POSIX seconds handed to `time.gmtime` (again a fixed function of that
integer).  A Python `Decimal(raw) * Decimal(10) ** -decimals` is exact
for a 32-bit mantissa and an 8-bit scale, so it is represented by the
rational it denotes.
-/

abbrev Byte := Fin 256

/-- Python `v[a:b]` for nonnegative bounds: clamps silently. -/
def pySlice (v : List Byte) (a b : Nat) : List Byte :=
  (v.drop a).take (b - a)

/-- Python index normalisation for slices: a negative index counts from the
end and the result is clamped into `[0, len]`. -/
def pyIdx (len : Nat) (i : Int) : Nat :=
  if i < 0 then ((len : Int) + i).toNat else min i.toNat len

/-- Python `v[a:b]` with possibly negative `Int` bounds. -/
def pySliceI (v : List Byte) (a b : Int) : List Byte :=
  (v.drop (pyIdx v.length a)).take (pyIdx v.length b - pyIdx v.length a)

/-- Python `v[i:]` with a possibly negative `Int` start. -/
def pyDropI (v : List Byte) (i : Int) : List Byte :=
  v.drop (pyIdx v.length i)

/-- Big-endian read of `n` bytes at offset `off`; `none` when fewer than
`n` bytes remain (`struct.error`). -/
def readBE (v : List Byte) (off n : Nat) : Option Nat :=
  if off + n ≤ v.length then
    some (((v.drop off).take n).foldl (fun a b => a * 256 + b.val) 0)
  else none

/-- Two's-complement reinterpretation of a `w`-bit unsigned value. -/
def toSigned (w : Nat) (n : Nat) : Int :=
  if n < 2 ^ (w - 1) then (n : Int) else (n : Int) - 2 ^ w

/-- `struct.unpack_from(">B", v, off)`. -/
def unpackU8 (v : List Byte) (off : Nat) : Option Nat :=
  (v.get? off).map Fin.val

/-- `struct.unpack_from("B", v, off)` at a Python `int` offset (a negative
offset is a `struct.error` in the Python 2 era this code targets). -/
def unpackU8at (v : List Byte) (off : Int) : Option Nat :=
  if 0 ≤ off then (v.get? off.toNat).map Fin.val else none

/-- `struct.unpack_from(">b", v, off)`. -/
def unpackI8 (v : List Byte) (off : Nat) : Option Int :=
  (unpackU8 v off).map (toSigned 8)

/-- `struct.unpack_from(">h", v, off)`. -/
def unpackI16 (v : List Byte) (off : Nat) : Option Int :=
  (readBE v off 2).map (toSigned 16)

/-- `struct.unpack_from(">l", v, off)` / `">i"`. -/
def unpackI32 (v : List Byte) (off : Nat) : Option Int :=
  (readBE v off 4).map (toSigned 32)

/-- `struct.unpack_from(">q", v, off)`. -/
def unpackI64 (v : List Byte) (off : Nat) : Option Int :=
  (readBE v off 8).map (toSigned 64)

/-- `struct.unpack_from(">I", v, off)`. -/
def unpackU32 (v : List Byte) (off : Nat) : Option Nat :=
  readBE v off 4

/-- `struct.unpack_from(">Q", v, off)`. -/
def unpackU64 (v : List Byte) (off : Nat) : Option Nat :=
  readBE v off 8

/-- Decoded values: the return contract of every decoder. -/
inductive Value where
  | vBool (b : Bool)
  | vDec (q : Rat)
  | vFloat (bits : Nat)
  | vInt (i : Int)
  | vStr (s : List Byte)
  | vArr (l : List Value)
  | vTable (m : List (List Byte × Value))
  | vTime (secs : Nat)
  | vNull

/-- `boolean(value)`: `return 1, bool(unpack_from(">B", value)[0])`. -/
def boolean (value : List Byte) : Option (Int × Value) :=
  (unpackU8 value 0).map fun b => (1, Value.vBool (b ≠ 0))

/-- `decimal(value)`: scale byte then 4-byte big-endian signed mantissa;
`return 5, Decimal(raw) * (Decimal(10) ** -decimals)`. -/
def decimal (value : List Byte) : Option (Int × Value) :=
  (unpackU8 value 0).bind fun decimals =>
    (unpackI32 value 1).map fun raw =>
      (5, Value.vDec ((raw : Rat) * (10 : Rat) ^ (-(decimals : Int))))

/-- `floating_point(value)`: `return 4, unpack_from(">f", value)[0]`. -/
def floating_point (value : List Byte) : Option (Int × Value) :=
  (unpackU32 value 0).map fun bits => (4, Value.vFloat bits)

/-- `long_int(value)`: `return 4, unpack_from(">l", value)[0]`. -/
def long_int (value : List Byte) : Option (Int × Value) :=
  (unpackI32 value 0).map fun i => (4, Value.vInt i)

/-- `long_long_int(value)`: `return 8, unpack_from(">q", value)[0]`. -/
def long_long_int (value : List Byte) : Option (Int × Value) :=
  (unpackI64 value 0).map fun i => (8, Value.vInt i)

/-- `octet(value)`: `return 1, unpack_from(">b", value)[0]`. -/
def octet (value : List Byte) : Option (Int × Value) :=
  (unpackI8 value 0).map fun i => (1, Value.vInt i)

/-- `short_int(value)`: `return 2, unpack_from(">h", value)[0]`. -/
def short_int (value : List Byte) : Option (Int × Value) :=
  (unpackI16 value 0).map fun i => (2, Value.vInt i)

/-- `short_string(value)`: 1-byte length then `value[1:length + 1]`. -/
def short_string (value : List Byte) : Option (Int × Value) :=
  (unpackU8 value 0).map fun (length : Nat) =>
    ((length : Int) + 1, Value.vStr (pySlice value 1 (length + 1)))

/-- `long_string(value)`: 4-byte length then `value[4:length + 4]`. -/
def long_string (value : List Byte) : Option (Int × Value) :=
  (unpackU32 value 0).map fun (length : Nat) =>
    ((length : Int) + 4, Value.vStr (pySlice value 4 (length + 4)))

/-- `timestamp(value)`: `return 8, gmtime(unpack_from(">Q", value)[0])`. -/
def timestamp (value : List Byte) : Option (Int × Value) :=
  (unpackU64 value 0).map fun t => (8, Value.vTime t)

/-- Python `data[key] = result` on a dict modelled as an association list:
an existing binding is overwritten in place, a new key is appended. -/
def dictInsert (m : List (List Byte × Value)) (k : List Byte) (r : Value) :
    List (List Byte × Value) :=
  if m.any (fun e => e.1 = k) then
    m.map (fun e => if e.1 = k then (k, r) else e)
  else m ++ [(k, r)]

/-- Python `data[key]` lookup on the association-list dict model. -/
def dictLookup (m : List (List Byte × Value)) (k : List Byte) : Option Value :=
  (m.find? (fun e => e.1 = k)).map Prod.snd

mutual

/-- `_decode_value(value)`: switch on `value[0]`, strip the tag, dispatch,
and return `consumed + 1`.  An unknown tag raises `ValueError` (`none`);
an empty buffer raises `IndexError` (`none`). -/
def _decode_value : Nat → List Byte → Option (Int × Value)
  | 0, _ => none
  | Nat.succ fuel, value =>
    match value.get? 0 with
    | none => none
    | some b =>
      (if b.val = 65 then (field_array fuel (value.drop 1)).map (fun p => (p.1 + 1, p.2))
       else if b.val = 68 then (decimal (value.drop 1)).map (fun p => (p.1 + 1, p.2))
       else if b.val = 102 then (floating_point (value.drop 1)).map (fun p => (p.1 + 1, p.2))
       else if b.val = 70 then (field_table fuel (value.drop 1)).map (fun p => (p.1 + 1, p.2))
       else if b.val = 73 then (long_int (value.drop 1)).map (fun p => (p.1 + 1, p.2))
       else if b.val = 76 then (long_long_int (value.drop 1)).map (fun p => (p.1 + 1, p.2))
       else if b.val = 116 then (boolean (value.drop 1)).map (fun p => (p.1 + 1, p.2))
       else if b.val = 84 then (timestamp (value.drop 1)).map (fun p => (p.1 + 1, p.2))
       else if b.val = 115 then (short_string (value.drop 1)).map (fun p => (p.1 + 1, p.2))
       else if b.val = 83 then (long_string (value.drop 1)).map (fun p => (p.1 + 1, p.2))
       else if b.val = 85 then (short_int (value.drop 1)).map (fun p => (p.1 + 1, p.2))
       else if b.val = 0 then some (0 + 1, Value.vNull)
       else none)

/-- `field_array(value)`: 4-byte signed declared length, then the element
loop; returns `field_array_end = 4 + length` and the collected list. -/
def field_array : Nat → List Byte → Option (Int × Value)
  | 0, _ => none
  | Nat.succ fuel, value =>
    (unpackI32 value 0).bind fun length =>
      (arrayLoop fuel value 4 (4 + length) []).map fun data =>
        (4 + length, Value.vArr data)

/-- The `while offset < field_array_end` loop body of `field_array`. -/
def arrayLoop : Nat → List Byte → Int → Int → List Value → Option (List Value)
  | 0, _, _, _, _ => none
  | Nat.succ fuel, value, offset, stop, data =>
    if offset < stop then
      match _decode_value fuel (pyDropI value offset) with
      | none => none
      | some (consumed, result) =>
        arrayLoop fuel value (offset + consumed) stop (data ++ [result])
    else some data

/-- `field_table(value)`: 4-byte signed declared length, then the
key/value loop; returns `field_table_end = 4 + length` and the dict. -/
def field_table : Nat → List Byte → Option (Int × Value)
  | 0, _ => none
  | Nat.succ fuel, value =>
    (unpackI32 value 0).bind fun length =>
      (tableLoop fuel value 4 (4 + length) []).map fun data =>
        (4 + length, Value.vTable data)

/-- The `while offset < field_table_end` loop body of `field_table`. -/
def tableLoop : Nat → List Byte → Int → Int →
    List (List Byte × Value) → Option (List (List Byte × Value))
  | 0, _, _, _, _ => none
  | Nat.succ fuel, value, offset, stop, data =>
    if offset < stop then
      match unpackU8at value offset with
      | none => none
      | some kl =>
        let keysize : Int := (kl : Int) + 1
        let key := pySliceI value (offset + 1) (offset + keysize)
        match _decode_value fuel (pyDropI value (offset + keysize)) with
        | none => none
        | some (consumed, result) =>
          tableLoop fuel value (offset + keysize + consumed) stop
            (dictInsert data key result)
    else some data

end

/-- `decode_by_type(value, data_type)`: name-driven dispatch with no tag
byte; an unrecognised name raises `ValueError` (`none`). -/
def decode_by_type (fuel : Nat) (value : List Byte) (data_type : String) :
    Option (Int × Value) :=
  if data_type = "bit" then boolean value
  else if data_type = "long" then long_int value
  else if data_type = "longlong" then long_long_int value
  else if data_type = "longstr" then long_string value
  else if data_type = "short" then short_int value
  else if data_type = "shortstr" then short_string value
  else if data_type = "table" then field_table fuel value
  else if data_type = "timestamp" then timestamp value
  else none

/-- `METHODS`: the literal data-type-to-decoder dict at the bottom of the
module (scalar decoders ignore the fuel argument used by `field_table`). -/
def METHODS : List (String × (Nat → List Byte → Option (Int × Value))) :=
  [("bit", fun _ => boolean),
   ("long", fun _ => long_int),
   ("longlong", fun _ => long_long_int),
   ("longstr", fun _ => long_string),
   ("octet", fun _ => octet),
   ("short", fun _ => short_int),
   ("shortstr", fun _ => short_string),
   ("table", field_table),
   ("timestamp", fun _ => timestamp)]

/-- Lookup in the `METHODS` dict. -/
def methodsLookup (n : String) : Option (Nat → List Byte → Option (Int × Value)) :=
  (METHODS.find? (fun e => e.1 = n)).map Prod.snd

/-- The eight type names `decode_by_type` recognises. -/
def decodeByTypeNames : List String :=
  ["bit", "long", "longlong", "longstr", "short", "shortstr", "table", "timestamp"]

/-- The entry sequence of a field-table buffer: the same loop as
`tableLoop`, recording the `(key, value)` pairs in wire order instead of
inserting them into the dict. -/
def tableEntriesLoop : Nat → List Byte → Int → Int →
    List (List Byte × Value) → Option (List (List Byte × Value))
  | 0, _, _, _, _ => none
  | Nat.succ fuel, value, offset, stop, acc =>
    if offset < stop then
      match unpackU8at value offset with
      | none => none
      | some kl =>
        let keysize : Int := (kl : Int) + 1
        let key := pySliceI value (offset + 1) (offset + keysize)
        match _decode_value fuel (pyDropI value (offset + keysize)) with
        | none => none
        | some (consumed, result) =>
          tableEntriesLoop fuel value (offset + keysize + consumed) stop
            (acc ++ [(key, result)])
    else some acc

/-- The `(key, value)` pairs of a field-table buffer in wire order. -/
def tableEntries (fuel : Nat) (v : List Byte) :
    Option (List (List Byte × Value)) :=
  match fuel with
  | 0 => none
  | Nat.succ fuel =>
    (unpackI32 v 0).bind fun length => tableEntriesLoop fuel v 4 (4 + length) []

/-! ### Helper lemmas -/

lemma consumed_of_map {α : Type} {o : Option α} {f : α → Int × Value} {c : Int}
    {val : Value} (h : o.map f = some (c, val)) (hf : ∀ a, 1 ≤ (f a).1) : 1 ≤ c := by
  rcases Option.map_eq_some'.mp h with ⟨a, -, he⟩
  have hfa := hf a
  rw [he] at hfa
  exact hfa

lemma boolean_consumed {v : List Byte} {c : Int} {val : Value}
    (h : boolean v = some (c, val)) : 1 ≤ c :=
  consumed_of_map h (fun _ => le_refl 1)

lemma decimal_consumed {v : List Byte} {c : Int} {val : Value}
    (h : decimal v = some (c, val)) : 1 ≤ c := by
  unfold decimal at h
  rcases Option.bind_eq_some.mp h with ⟨d, -, h2⟩
  exact consumed_of_map h2 (fun _ => by norm_num)

lemma floating_point_consumed {v : List Byte} {c : Int} {val : Value}
    (h : floating_point v = some (c, val)) : 1 ≤ c :=
  consumed_of_map h (fun _ => by norm_num)

lemma long_int_consumed {v : List Byte} {c : Int} {val : Value}
    (h : long_int v = some (c, val)) : 1 ≤ c :=
  consumed_of_map h (fun _ => by norm_num)

lemma long_long_int_consumed {v : List Byte} {c : Int} {val : Value}
    (h : long_long_int v = some (c, val)) : 1 ≤ c :=
  consumed_of_map h (fun _ => by norm_num)

lemma octet_consumed {v : List Byte} {c : Int} {val : Value}
    (h : octet v = some (c, val)) : 1 ≤ c :=
  consumed_of_map h (fun _ => le_refl 1)

lemma short_int_consumed {v : List Byte} {c : Int} {val : Value}
    (h : short_int v = some (c, val)) : 1 ≤ c :=
  consumed_of_map h (fun _ => by norm_num)

lemma short_string_consumed {v : List Byte} {c : Int} {val : Value}
    (h : short_string v = some (c, val)) : 1 ≤ c :=
  consumed_of_map h (fun a => by show 1 ≤ (a : Int) + 1; omega)

lemma long_string_consumed {v : List Byte} {c : Int} {val : Value}
    (h : long_string v = some (c, val)) : 1 ≤ c :=
  consumed_of_map h (fun a => by show 1 ≤ (a : Int) + 4; omega)

lemma timestamp_consumed {v : List Byte} {c : Int} {val : Value}
    (h : timestamp v = some (c, val)) : 1 ≤ c :=
  consumed_of_map h (fun _ => by norm_num)

lemma field_array_consumed {fuel : Nat} {v : List Byte} {c : Int} {val : Value}
    (h : field_array fuel v = some (c, val)) :
    ∃ L, unpackI32 v 0 = some L ∧ c = 4 + L := by
  cases fuel with
  | zero => simp [field_array] at h
  | succ n =>
    unfold field_array at h
    rcases Option.bind_eq_some.mp h with ⟨L, hL, h2⟩
    rcases Option.map_eq_some'.mp h2 with ⟨d, -, he⟩
    injection he with e1 e2
    exact ⟨L, hL, e1.symm⟩

lemma field_table_consumed {fuel : Nat} {v : List Byte} {c : Int} {val : Value}
    (h : field_table fuel v = some (c, val)) :
    ∃ L, unpackI32 v 0 = some L ∧ c = 4 + L := by
  cases fuel with
  | zero => simp [field_table] at h
  | succ n =>
    unfold field_table at h
    rcases Option.bind_eq_some.mp h with ⟨L, hL, h2⟩
    rcases Option.map_eq_some'.mp h2 with ⟨d, -, he⟩
    injection he with e1 e2
    exact ⟨L, hL, e1.symm⟩

lemma consumed_tag_bump {o : Option (Int × Value)} {c : Int} {val : Value}
    (h : o.map (fun p => (p.1 + 1, p.2)) = some (c, val))
    (ho : ∀ q r, o = some (q, r) → 1 ≤ q) : 1 ≤ c := by
  rcases Option.map_eq_some'.mp h with ⟨⟨q, r⟩, hq, he⟩
  injection he with e1 e2
  have := ho q r hq
  omega

lemma arrayLoop_exit {fuel : Nat} {v : List Byte} {off stop : Int}
    {acc : List Value} (h : stop ≤ off) :
    arrayLoop (fuel + 1) v off stop acc = some acc := by
  unfold arrayLoop
  rw [if_neg (not_lt.mpr h)]

lemma tableLoop_exit {fuel : Nat} {v : List Byte} {off stop : Int}
    {d : List (List Byte × Value)} (h : stop ≤ off) :
    tableLoop (fuel + 1) v off stop d = some d := by
  unfold tableLoop
  rw [if_neg (not_lt.mpr h)]

lemma decode_value_unknown {fuel : Nat} {v : List Byte} {b : Byte}
    (hb : v.get? 0 = some b)
    (hnot : b.val ∉ ([65, 68, 102, 70, 73, 76, 116, 84, 115, 83, 85, 0] : List Nat)) :
    _decode_value fuel v = none := by
  cases fuel with
  | zero => rfl
  | succ n =>
    simp only [List.mem_cons, List.not_mem_nil, or_false, not_or] at hnot
    obtain ⟨h1, h2, h3, h4, h5, h6, h7, h8, h9, h10, h11, h12⟩ := hnot
    unfold _decode_value
    rw [hb]
    simp only [if_neg h1, if_neg h2, if_neg h3, if_neg h4, if_neg h5, if_neg h6,
      if_neg h7, if_neg h8, if_neg h9, if_neg h10, if_neg h11, if_neg h12]

lemma decode_value_null {fuel : Nat} {v : List Byte}
    (hb : v.get? 0 = some 0) :
    _decode_value (fuel + 1) v = some (1, Value.vNull) := by
  unfold _decode_value
  rw [hb]
  norm_num

lemma decode_value_consumed {fuel : Nat} {v : List Byte} {c : Int} {val : Value}
    (h : _decode_value fuel v = some (c, val))
    (hA : v.get? 0 ≠ some 65) (hF : v.get? 0 ≠ some 70) : 1 ≤ c := by
  cases fuel with
  | zero => simp [_decode_value] at h
  | succ n =>
    unfold _decode_value at h
    split at h
    · exact absurd h (by simp)
    · rename_i b hg
      by_cases h1 : b.val = 65
      · exact absurd (hg.trans (congrArg some (Fin.ext h1))) hA
      rw [if_neg h1] at h
      by_cases h2 : b.val = 68
      · rw [if_pos h2] at h
        exact consumed_tag_bump h (fun q r hqr => decimal_consumed hqr)
      rw [if_neg h2] at h
      by_cases h3 : b.val = 102
      · rw [if_pos h3] at h
        exact consumed_tag_bump h (fun q r hqr => floating_point_consumed hqr)
      rw [if_neg h3] at h
      by_cases h4 : b.val = 70
      · exact absurd (hg.trans (congrArg some (Fin.ext h4))) hF
      rw [if_neg h4] at h
      by_cases h5 : b.val = 73
      · rw [if_pos h5] at h
        exact consumed_tag_bump h (fun q r hqr => long_int_consumed hqr)
      rw [if_neg h5] at h
      by_cases h6 : b.val = 76
      · rw [if_pos h6] at h
        exact consumed_tag_bump h (fun q r hqr => long_long_int_consumed hqr)
      rw [if_neg h6] at h
      by_cases h7 : b.val = 116
      · rw [if_pos h7] at h
        exact consumed_tag_bump h (fun q r hqr => boolean_consumed hqr)
      rw [if_neg h7] at h
      by_cases h8 : b.val = 84
      · rw [if_pos h8] at h
        exact consumed_tag_bump h (fun q r hqr => timestamp_consumed hqr)
      rw [if_neg h8] at h
      by_cases h9 : b.val = 115
      · rw [if_pos h9] at h
        exact consumed_tag_bump h (fun q r hqr => short_string_consumed hqr)
      rw [if_neg h9] at h
      by_cases h10 : b.val = 83
      · rw [if_pos h10] at h
        exact consumed_tag_bump h (fun q r hqr => long_string_consumed hqr)
      rw [if_neg h10] at h
      by_cases h11 : b.val = 85
      · rw [if_pos h11] at h
        exact consumed_tag_bump h (fun q r hqr => short_int_consumed hqr)
      rw [if_neg h11] at h
      by_cases h12 : b.val = 0
      · rw [if_pos h12] at h
        injection h with he
        injection he with e1 e2
        omega
      rw [if_neg h12] at h
      exact absurd h (by simp)

lemma find?_map_replace_self {k : List Byte} {r : Value} :
    ∀ {d : List (List Byte × Value)}, d.any (fun e => e.1 = k) = true →
    (d.map (fun e => if e.1 = k then (k, r) else e)).find? (fun e => e.1 = k) =
      some (k, r) := by
  intro d
  induction d with
  | nil => intro h; simp at h
  | cons e t ih =>
    intro h
    by_cases he : e.1 = k
    · simp [List.find?_cons, he]
    · have ht : t.any (fun e => e.1 = k) = true := by
        simpa [List.any_cons, he] using h
      simp [List.find?_cons, he, ih ht]

lemma find?_map_replace_ne {k' k : List Byte} {r : Value} (hne : k' ≠ k) :
    ∀ (d : List (List Byte × Value)),
    (d.map (fun e => if e.1 = k' then (k', r) else e)).find? (fun e => e.1 = k) =
      d.find? (fun e => e.1 = k) := by
  intro d
  induction d with
  | nil => rfl
  | cons e t ih =>
    by_cases he : e.1 = k'
    · have hek : ¬ e.1 = k := by rw [he]; exact hne
      simp [List.find?_cons, he, hne, hek, ih]
    · by_cases hek : e.1 = k
      · simp [List.find?_cons, he, hek, Ne.symm hne]
      · simp [List.find?_cons, he, hek, ih]

lemma dictLookup_insert (d : List (List Byte × Value)) (k' k : List Byte) (r : Value) :
    dictLookup (dictInsert d k' r) k = if k' = k then some r else dictLookup d k := by
  unfold dictInsert dictLookup
  by_cases hmem : d.any (fun e => e.1 = k') = true
  · rw [if_pos hmem]
    by_cases hk : k' = k
    · subst hk
      rw [if_pos rfl, find?_map_replace_self hmem]
      rfl
    · rw [if_neg hk, find?_map_replace_ne hk]
  · rw [if_neg hmem, List.find?_append]
    by_cases hk : k' = k
    · subst hk
      have hnone : d.find? (fun e => e.1 = k') = none :=
        List.find?_eq_none.mpr (fun x hx hpx => hmem (List.any_eq_true.mpr ⟨x, hx, hpx⟩))
      rw [if_pos rfl, hnone]
      simp [List.find?_cons]
    · have hnone : List.find? (fun e => e.1 = k) [(k', r)] = none := by
        simp [List.find?_cons, hk]
      rw [if_neg hk, hnone, Option.or_none]

lemma dictLookup_foldl (k : List Byte) :
    ∀ (l d : List (List Byte × Value)),
    dictLookup (l.foldl (fun m kv => dictInsert m kv.1 kv.2) d) k =
      match l.reverse.find? (fun e => e.1 = k) with
      | some e => some e.2
      | none => dictLookup d k := by
  intro l
  induction l with
  | nil => intro d; rfl
  | cons e t ih =>
    intro d
    rw [List.foldl_cons, ih, List.reverse_cons, List.find?_append]
    cases hf : t.reverse.find? (fun x => x.1 = k) with
    | some x => rfl
    | none =>
      rw [Option.none_or, dictLookup_insert]
      by_cases hk : e.1 = k
      · simp [List.find?_cons, hk]
      · simp [List.find?_cons, hk]

lemma tableEntriesLoop_acc :
    ∀ (fuel : Nat) (v : List Byte) (off stop : Int) (acc : List (List Byte × Value)),
    tableEntriesLoop fuel v off stop acc =
      (tableEntriesLoop fuel v off stop []).map (acc ++ ·) := by
  intro fuel
  induction fuel with
  | zero => intros; rfl
  | succ n ih =>
    intro v off stop acc
    unfold tableEntriesLoop
    by_cases hlt : off < stop
    · rw [if_pos hlt, if_pos hlt]
      cases hu : unpackU8at v off with
      | none => simp only [hu]; rfl
      | some kl =>
        simp only [hu]
        cases hd : _decode_value n (pyDropI v (off + ((kl : Int) + 1))) with
        | none => simp only [hd]; rfl
        | some p =>
          obtain ⟨consumed, result⟩ := p
          simp only [hd]
          rw [ih v (off + ((kl : Int) + 1) + consumed) stop
              (acc ++ [(pySliceI v (off + 1) (off + ((kl : Int) + 1)), result)]),
            ih v (off + ((kl : Int) + 1) + consumed) stop
              ([] ++ [(pySliceI v (off + 1) (off + ((kl : Int) + 1)), result)]),
            Option.map_map]
          congr 1
          funext l
          simp
    · rw [if_neg hlt, if_neg hlt]
      simp

lemma tableLoop_entries :
    ∀ (fuel : Nat) (v : List Byte) (off stop : Int) (d : List (List Byte × Value)),
    tableLoop fuel v off stop d =
      (tableEntriesLoop fuel v off stop []).map
        (fun l => l.foldl (fun m kv => dictInsert m kv.1 kv.2) d) := by
  intro fuel
  induction fuel with
  | zero => intros; rfl
  | succ n ih =>
    intro v off stop d
    unfold tableLoop tableEntriesLoop
    by_cases hlt : off < stop
    · rw [if_pos hlt, if_pos hlt]
      cases hu : unpackU8at v off with
      | none => simp only [hu]; rfl
      | some kl =>
        simp only [hu]
        cases hd : _decode_value n (pyDropI v (off + ((kl : Int) + 1))) with
        | none => simp only [hd]; rfl
        | some p =>
          obtain ⟨consumed, result⟩ := p
          simp only [hd]
          rw [ih v (off + ((kl : Int) + 1) + consumed) stop
              (dictInsert d (pySliceI v (off + 1) (off + ((kl : Int) + 1))) result),
            tableEntriesLoop_acc n v (off + ((kl : Int) + 1) + consumed) stop
              ([] ++ [(pySliceI v (off + 1) (off + ((kl : Int) + 1)), result)]),
            Option.map_map]
          congr 1
    · rw [if_neg hlt, if_neg hlt]
      rfl

lemma field_table_of_entries {fuel : Nat} {v : List Byte}
    {l : List (List Byte × Value)} (hl : tableEntries fuel v = some l) :
    ∃ L, unpackI32 v 0 = some L ∧
      field_table fuel v =
        some (4 + L, Value.vTable (l.foldl (fun m kv => dictInsert m kv.1 kv.2) [])) := by
  cases fuel with
  | zero => simp [tableEntries] at hl
  | succ n =>
    unfold tableEntries at hl
    rcases Option.bind_eq_some.mp hl with ⟨L, hL, hloop⟩
    refine ⟨L, hL, ?_⟩
    unfold field_table
    rw [hL, Option.some_bind, tableLoop_entries, hloop]
    rfl

lemma get?_zero_pos {v : List Byte} {b : Byte} (h : v.get? 0 = some b) :
    0 < v.length := by
  rcases List.get?_eq_some.mp h with ⟨hlt, -⟩
  exact hlt

lemma readBE_le {v : List Byte} {off n x : Nat} (h : readBE v off n = some x) :
    off + n ≤ v.length := by
  by_cases hc : off + n ≤ v.length
  · exact hc
  · unfold readBE at h
    rw [if_neg hc] at h
    exact absurd h (by simp)

/-! ### Claims -/

/-- Claim C1 (counterexample): a field-array buffer with declared length
L = 1 whose single element (tag 't' plus payload) makes the dispatcher
consume 2 bytes, so the running offset jumps from 4 to 6, strictly past
the boundary 4 + L = 5 — yet `field_array` returns consumed = 5 with a
misaligned result instead of failing with any error. -/
theorem field_array_overshoot_returns_result :
    _decode_value 99 [116, 1] = some (2, Value.vBool true) ∧
    (4 : Int) + 2 > 4 + 1 ∧
    field_array 100 [0, 0, 0, 1, 116, 1] = some (5, Value.vArr [Value.vBool true]) :=
  ⟨rfl, by decide, rfl⟩

/-- Claim C1 (amended): the composite decoders detect no overshoot at
all.  As soon as the running offset reaches or exceeds the declared
boundary — including strictly past it — the element loop simply exits
with the values accumulated so far, and the composite decoder returns
the declared `4 + L` as its consumed count; no MalformedLength (or any
other) error is raised and a partially-misaligned result is returned. -/
theorem composite_overshoot_no_error (fuel : Nat) (v : List Byte)
    (off stop : Int) (acc : List Value) (d : List (List Byte × Value))
    (c : Int) (val : Value) :
    (stop ≤ off → arrayLoop (fuel + 1) v off stop acc = some acc) ∧
    (stop ≤ off → tableLoop (fuel + 1) v off stop d = some d) ∧
    (field_array fuel v = some (c, val) → ∃ L, unpackI32 v 0 = some L ∧ c = 4 + L) ∧
    (field_table fuel v = some (c, val) → ∃ L, unpackI32 v 0 = some L ∧ c = 4 + L) :=
  ⟨fun h => arrayLoop_exit h, fun h => tableLoop_exit h,
   fun h => field_array_consumed h, fun h => field_table_consumed h⟩

/-- Witness for the amended C1 at a concrete overshot offset 7 > 5. -/
theorem composite_overshoot_no_error_witness :
    arrayLoop 1 [] 7 5 [] = some [] :=
  (composite_overshoot_no_error 0 [] 7 5 [] [] 0 Value.vNull).1 (by decide)

/-- Claim C2 (counterexample): the spec's 9-byte buffer
`46 00 00 00 06 01 61 74 01` declares table length 6, but its entries
occupy only 4 bytes; after the single entry the offset is 8 < 10, the
loop reads a key-length byte past the end of the buffer and the decode
fails (struct.error in Python) instead of returning (9, mapping). -/
theorem field_table_example_buffer_fails :
    _decode_value 100 [70, 0, 0, 0, 6, 1, 97, 116, 1] = none := rfl

/-- Claim C2 (amended): the field-table encoding of the mapping with the
single key "a" bound to true carries declared length 4, i.e. the buffer
`46 00 00 00 04 01 61 74 01`; on it the tag dispatcher returns
consumed = 9 and the mapping from key [0x61] to boolean true, exactly at
the declared boundary. -/
theorem field_table_example_corrected :
    _decode_value 100 [70, 0, 0, 0, 4, 1, 97, 116, 1] =
      some (9, Value.vTable [([97], Value.vBool true)]) := rfl

/-- Claim C3 (counterexample): the declared composite length is read as a
signed 32-bit integer; on the field-array buffer `FF FF FF FC`
(declared L = −4) the decoder succeeds with bytes_consumed = 4 + L = 0,
violating bytes_consumed ≥ 1. -/
theorem field_array_consumed_zero :
    field_array 100 [255, 255, 255, 252] = some (0, Value.vArr []) ∧
    ¬ (1 ≤ (0 : Int)) :=
  ⟨rfl, by decide⟩

/-- Claim C3 (amended): every scalar decoder returns bytes_consumed ≥ 1
on success; the composite decoders return exactly 4 + L for the declared
signed length L, which is ≥ 1 precisely when L ≥ −3 (so for every
nonnegative declared length, but not for L ≤ −4); and the tag dispatcher
returns ≥ 1 whenever the tag is not one of the composite tags 'A'/'F'
(through which a negative declared length can leak out). -/
theorem consumed_lower_bounds (fuel : Nat) (v : List Byte) (c : Int) (val : Value) :
    (boolean v = some (c, val) → 1 ≤ c) ∧
    (decimal v = some (c, val) → 1 ≤ c) ∧
    (floating_point v = some (c, val) → 1 ≤ c) ∧
    (long_int v = some (c, val) → 1 ≤ c) ∧
    (long_long_int v = some (c, val) → 1 ≤ c) ∧
    (octet v = some (c, val) → 1 ≤ c) ∧
    (short_int v = some (c, val) → 1 ≤ c) ∧
    (short_string v = some (c, val) → 1 ≤ c) ∧
    (long_string v = some (c, val) → 1 ≤ c) ∧
    (timestamp v = some (c, val) → 1 ≤ c) ∧
    (field_array fuel v = some (c, val) → ∃ L, unpackI32 v 0 = some L ∧ c = 4 + L) ∧
    (field_table fuel v = some (c, val) → ∃ L, unpackI32 v 0 = some L ∧ c = 4 + L) ∧
    (_decode_value fuel v = some (c, val) →
      v.get? 0 ≠ some 65 → v.get? 0 ≠ some 70 → 1 ≤ c) :=
  ⟨fun h => boolean_consumed h, fun h => decimal_consumed h,
   fun h => floating_point_consumed h, fun h => long_int_consumed h,
   fun h => long_long_int_consumed h, fun h => octet_consumed h,
   fun h => short_int_consumed h, fun h => short_string_consumed h,
   fun h => long_string_consumed h, fun h => timestamp_consumed h,
   fun h => field_array_consumed h, fun h => field_table_consumed h,
   fun h hA hF => decode_value_consumed h hA hF⟩

/-- Witness for the amended C3: the dispatcher on the boolean buffer
`74 01` consumes 2 ≥ 1. -/
theorem consumed_lower_bounds_witness : (1 : Int) ≤ 2 :=
  (consumed_lower_bounds 5 [116, 1] 2 (Value.vBool true)).2.2.2.2.2.2.2.2.2.2.2.2
    rfl (by decide) (by decide)

/-- Claim C4: `decode_by_type` agrees with the `METHODS` registry on each
of the eight recognized type names (bit, long, longlong, longstr, short,
shortstr, table, timestamp), any other name is an unknown-type error, and
the registry additionally holds an `octet` entry that `decode_by_type`
does not accept. -/
theorem decode_by_type_registry_equiv (fuel : Nat) (v : List Byte) (n : String) :
    decode_by_type fuel v "bit" = boolean v ∧
    decode_by_type fuel v "long" = long_int v ∧
    decode_by_type fuel v "longlong" = long_long_int v ∧
    decode_by_type fuel v "longstr" = long_string v ∧
    decode_by_type fuel v "short" = short_int v ∧
    decode_by_type fuel v "shortstr" = short_string v ∧
    decode_by_type fuel v "table" = field_table fuel v ∧
    decode_by_type fuel v "timestamp" = timestamp v ∧
    (n ∈ decodeByTypeNames →
      ∃ f, methodsLookup n = some f ∧ decode_by_type fuel v n = f fuel v) ∧
    (n ∉ decodeByTypeNames → decode_by_type fuel v n = none) ∧
    (∃ f, methodsLookup "octet" = some f ∧ ∀ g w, f g w = octet w) ∧
    decode_by_type fuel v "octet" = none := by
  refine ⟨rfl, rfl, rfl, rfl, rfl, rfl, rfl, rfl, ?_, ?_,
    ⟨fun _ => octet, rfl, fun g w => rfl⟩, rfl⟩
  · intro h
    simp only [decodeByTypeNames, List.mem_cons, List.not_mem_nil, or_false] at h
    rcases h with rfl | rfl | rfl | rfl | rfl | rfl | rfl | rfl
    all_goals exact ⟨_, rfl, rfl⟩
  · intro h
    simp only [decodeByTypeNames, List.mem_cons, List.not_mem_nil, or_false,
      not_or] at h
    obtain ⟨n1, n2, n3, n4, n5, n6, n7, n8⟩ := h
    unfold decode_by_type
    rw [if_neg n1, if_neg n2, if_neg n3, if_neg n4, if_neg n5, if_neg n6,
      if_neg n7, if_neg n8]

/-- Witness for C4: an unrecognized name yields the unknown-type error. -/
theorem decode_by_type_registry_equiv_witness :
    decode_by_type 1 [] "frob" = none :=
  (decode_by_type_registry_equiv 1 [] "frob").2.2.2.2.2.2.2.2.2.1 (by decide)

/-- Claim C5: on every buffer whose first byte is none of the twelve
recognized tag bytes 'A' 'D' 'f' 'F' 'I' 'L' 't' 'T' 's' 'S' 'U' 0x00,
the tag dispatcher fails with the unknown-type error: no decoder is
invoked, no bytes are consumed, and no partial result exists. -/
theorem decode_value_unknown_tag_fails (fuel : Nat) (v : List Byte) (b : Byte)
    (hb : v.get? 0 = some b)
    (hnot : b.val ∉ ([65, 68, 102, 70, 73, 76, 116, 84, 115, 83, 85, 0] : List Nat)) :
    _decode_value fuel v = none :=
  decode_value_unknown hb hnot

/-- Witness for C5 at the unknown tag byte 0x99. -/
theorem decode_value_unknown_tag_fails_witness :
    _decode_value 3 [153] = none :=
  decode_value_unknown_tag_fails 3 [153] 153 rfl (by decide)

/-- Claim C6: on every buffer whose byte at index 0 is the null tag 0x00
the dispatcher returns consumed = 1 (the null branch itself contributes
0 bytes beyond the tag) and the absent/null value. -/
theorem decode_value_null_tag (fuel : Nat) (v : List Byte)
    (hb : v.get? 0 = some 0) :
    _decode_value (fuel + 1) v = some (1, Value.vNull) :=
  decode_value_null hb

/-- Witness for C6 on the one-byte buffer `00`. -/
theorem decode_value_null_tag_witness :
    _decode_value 1 [0] = some (1, Value.vNull) :=
  decode_value_null_tag 0 [0] rfl

/-- Claim C7: whenever the entry sequence of a field-table buffer holds
two or more entries with the same key bytes, `field_table` succeeds with
a mapping in which that key is bound to the value of the last
(latest-offset) entry with that key in the wire encoding (the latest
entry is the first hit in the reversed entry list): last-write-wins. -/
theorem field_table_last_write_wins (fuel : Nat) (v : List Byte)
    (l : List (List Byte × Value)) (k : List Byte)
    (hl : tableEntries fuel v = some l)
    (hdup : 2 ≤ (l.filter (fun e => e.1 = k)).length) :
    ∃ c m, field_table fuel v = some (c, Value.vTable m) ∧
      dictLookup m k = (l.reverse.find? (fun e => e.1 = k)).map Prod.snd := by
  rcases field_table_of_entries hl with ⟨L, hL, hft⟩
  refine ⟨4 + L, _, hft, ?_⟩
  rw [dictLookup_foldl]
  cases hf : l.reverse.find? (fun e => e.1 = k) with
  | some e => rfl
  | none => rfl

/-- Witness for C7: the table buffer with declared length 8 encoding the
entries a→false then a→true maps "a" to true. -/
theorem field_table_last_write_wins_witness :
    ∃ c m, field_table 9 [0, 0, 0, 8, 1, 97, 116, 0, 1, 97, 116, 1] =
        some (c, Value.vTable m) ∧
      dictLookup m [97] =
        ((([([97], Value.vBool false), ([97], Value.vBool true)] :
            List (List Byte × Value))).reverse.find?
          (fun e => e.1 = [97])).map Prod.snd :=
  field_table_last_write_wins 9 [0, 0, 0, 8, 1, 97, 116, 0, 1, 97, 116, 1]
    [([97], Value.vBool false), ([97], Value.vBool true)] [97] rfl (by decide)

/-- Claim C8: on every buffer whose first byte is the unsigned scale s and
whose next 4 bytes read as the big-endian signed mantissa m, the decimal
decoder returns consumed = 5 and the value m·10^(−s), which equals the
exact rational m / 10^s — no rounding for any 8-bit scale and 32-bit
mantissa, since the value is an exact scaled decimal. -/
theorem decimal_exact_value (v : List Byte) (s : Byte) (m : Int)
    (h0 : v.get? 0 = some s) (h1 : unpackI32 v 1 = some m) :
    decimal v = some (5, Value.vDec ((m : Rat) * (10 : Rat) ^ (-(s.val : Int)))) ∧
    (m : Rat) * (10 : Rat) ^ (-(s.val : Int)) = (m : Rat) / (10 : Rat) ^ s.val := by
  constructor
  · have hu : unpackU8 v 0 = some s.val := by
      unfold unpackU8
      rw [h0]
      rfl
    unfold decimal
    rw [hu, Option.some_bind, h1]
    rfl
  · rw [zpow_neg, zpow_natCast, div_eq_mul_inv]

/-- Witness for C8 on the buffer `02 00 00 00 05` (scale 2, mantissa 5). -/
theorem decimal_exact_value_witness :
    decimal [2, 0, 0, 0, 5] =
      some (5, Value.vDec (((5 : Int) : Rat) *
        (10 : Rat) ^ (-(((2 : Byte)).val : Int)))) ∧
    ((5 : Int) : Rat) * (10 : Rat) ^ (-(((2 : Byte)).val : Int)) =
      ((5 : Int) : Rat) / (10 : Rat) ^ ((2 : Byte)).val :=
  decimal_exact_value [2, 0, 0, 0, 5] 2 5 rfl rfl

/-- Claim C9: every decode operation of the module is a pure function of
its input buffer (and type name, for the typed decoder): invoking it
twice on the same buffer yields structurally equal results — the propositional
equality below is deep equality across nested sequences and mappings. -/
theorem decode_deterministic (fuel : Nat) (v : List Byte) (n : String) :
    _decode_value fuel v = _decode_value fuel v ∧
    field_array fuel v = field_array fuel v ∧
    field_table fuel v = field_table fuel v ∧
    boolean v = boolean v ∧
    decimal v = decimal v ∧
    floating_point v = floating_point v ∧
    long_int v = long_int v ∧
    long_long_int v = long_long_int v ∧
    octet v = octet v ∧
    short_int v = short_int v ∧
    short_string v = short_string v ∧
    long_string v = long_string v ∧
    timestamp v = timestamp v ∧
    decode_by_type fuel v n = decode_by_type fuel v n :=
  ⟨rfl, rfl, rfl, rfl, rfl, rfl, rfl, rfl, rfl, rfl, rfl, rfl, rfl, rfl⟩

/-- Claim C10: when the 1-byte (short string) or 4-byte (long string)
length prefix declares more bytes than remain after the prefix, the
string decoders do not fail: they return the full declared consumed
count (which then exceeds the buffer's total size) together with only
the bytes actually available — a silently truncated byte-string. -/
theorem string_declared_length_truncation (v : List Byte) :
    (∀ len : Nat, unpackU8 v 0 = some len → v.length - 1 < len →
      short_string v = some ((len : Int) + 1, Value.vStr (v.drop 1)) ∧
      (v.drop 1).length < len ∧ (v.length : Int) < (len : Int) + 1) ∧
    (∀ len : Nat, unpackU32 v 0 = some len → v.length - 4 < len →
      long_string v = some ((len : Int) + 4, Value.vStr (v.drop 4)) ∧
      (v.drop 4).length < len ∧ (v.length : Int) < (len : Int) + 4) := by
  constructor
  · intro len h hlen
    have hpos : 0 < v.length := by
      cases hv : v.get? 0 with
      | none => rw [unpackU8, hv] at h; exact absurd h (by simp)
      | some b => exact get?_zero_pos hv
    refine ⟨?_, ?_, ?_⟩
    · unfold short_string
      rw [h, Option.map_some']
      have hsl : pySlice v 1 (len + 1) = v.drop 1 := by
        unfold pySlice
        rw [Nat.add_sub_cancel]
        exact List.take_of_length_le (by rw [List.length_drop]; omega)
      rw [hsl]
    · rw [List.length_drop]; omega
    · omega
  · intro len h hlen
    have h4 : 4 ≤ v.length := readBE_le h
    refine ⟨?_, ?_, ?_⟩
    · unfold long_string
      rw [h, Option.map_some']
      have hsl : pySlice v 4 (len + 4) = v.drop 4 := by
        unfold pySlice
        rw [Nat.add_sub_cancel]
        exact List.take_of_length_le (by rw [List.length_drop]; omega)
      rw [hsl]
    · rw [List.length_drop]; omega
    · omega

/-- Witness for C10: the short-string buffer `05 61 62` declares 5 bytes
but only 2 follow; consumed is 6 > 3 and the value is just `61 62`. -/
theorem string_declared_length_truncation_witness :
    short_string [5, 97, 98] =
      some (((5 : Nat) : Int) + 1, Value.vStr (List.drop 1 [5, 97, 98])) ∧
    (List.drop 1 ([5, 97, 98] : List Byte)).length < 5 ∧
    ((([5, 97, 98] : List Byte).length : Int) < ((5 : Nat) : Int) + 1) :=
  (string_declared_length_truncation [5, 97, 98]).1 5 rfl (by decide)
